import Mathlib

/-!
Verification development for the Bitcoin-Block prediction game.

The embedding follows the in-process table store
(`src/lib/mock-spacetime-client.ts`, class `MockDatabase`), the
caller-facing lifecycle layer (`GameContext`: `convertRound`,
`convertGuess`, `submitGuess`, `endRound`, `updateRoundResult`,
`addChatMessage`, the chat subscription handler, `activeRound`), and the
winner-resolution polling tick of the same context.

Timestamps: the source stamps rows with `Math.floor(Date.now() / 1000)`;
every reducer here takes the current time in seconds as an explicit
parameter.  JS `Map` objects keyed by an auto-incremented id are embedded
as lists in insertion order (`Map.set` on an existing key keeps its
position, modelled by in-place replacement).
-/

/-- Round status; the source stores the string literals
`open` / `closed` / `finished` (a closed TS union type). -/
inductive RoundStatus where
  | statusOpen
  | statusClosed
  | statusFinished
deriving DecidableEq, Repr

/-- `Round` row of the store (SpacetimeDB binding shape). -/
structure Round where
  roundId : Nat
  roundNumber : Nat
  startTime : Nat
  endTime : Nat
  durationMinutes : Nat
  prize : String
  status : RoundStatus
  blockNumber : Option Nat
  actualTxCount : Option Nat
  winningFid : Option Nat
  blockHash : Option String
  createdAt : Nat
deriving DecidableEq, Repr

/-- `Guess` row of the store. -/
structure Guess where
  guessId : Nat
  roundId : Nat
  fid : Nat
  username : String
  guess : Nat
  pfpUrl : String
  submittedAt : Nat
deriving DecidableEq, Repr

/-- `ChatMessage` row of the store. -/
structure ChatMsg where
  chatId : Nat
  roundId : String
  address : String
  username : String
  message : String
  pfpUrl : String
  timestamp : Nat
  msgType : String
deriving DecidableEq, Repr

/-- `LogEvent` row of the store. -/
structure LogEvent where
  logId : Nat
  eventType : String
  details : String
  timestamp : Nat
deriving DecidableEq, Repr

/-- `PrizeConfig` row of the store. -/
structure PrizeConfig where
  configId : Nat
  jackpotAmount : Nat
  firstPlaceAmount : Nat
  secondPlaceAmount : Nat
  currencyType : String
  tokenContractAddress : String
  updatedAt : Nat
deriving DecidableEq, Repr

/-- The `MockDatabase` state: one table (insertion-ordered list) per
entity kind plus the per-table id counters, all starting at 1. -/
structure DB where
  rounds : List Round
  guesses : List Guess
  chatMessages : List ChatMsg
  logs : List LogEvent
  prizeConfigs : List PrizeConfig
  roundIdCounter : Nat
  guessIdCounter : Nat
  chatIdCounter : Nat
  logIdCounter : Nat
  configIdCounter : Nat
deriving DecidableEq, Repr

/-- Fresh database: every table empty, every counter at 1
(`new MockDatabase()`). -/
def initialDB : DB :=
  { rounds := [], guesses := [], chatMessages := [], logs := []
    prizeConfigs := [], roundIdCounter := 1, guessIdCounter := 1
    chatIdCounter := 1, logIdCounter := 1, configIdCounter := 1 }

/- Event-type tags used by the reducers (string literals in the source). -/

def evRoundCreated : String := "round_created"

def evGuessSubmitted : String := "guess_submitted"

def evRoundEnded : String := "round_ended"

def evRoundFinished : String := "round_finished"

def evPrizeConfigSaved : String := "prize_config_saved"

/-- `this.rounds.get(roundId)`: lookup by round id
(first match in insertion order; ids are unique by construction). -/
def findRound (roundId : Nat) (rounds : List Round) : Option Round :=
  rounds.find? (fun r => r.roundId == roundId)

/-- `this.rounds.set(roundId, round)` on an existing key: replace the
entry with that id in place, keeping insertion order. -/
def setRound (roundId : Nat) (r : Round) (rounds : List Round) : List Round :=
  rounds.map (fun x => if x.roundId == roundId then r else x)

namespace MockDatabase

/-- Private helper `addLog`: appends one `LogEvent` with the next log id. -/
def addLog (eventType details : String) (now : Nat) (db : DB) : DB :=
  let log : LogEvent :=
    { logId := db.logIdCounter, eventType := eventType
      details := details, timestamp := now }
  { db with logs := db.logs ++ [log], logIdCounter := db.logIdCounter + 1 }

/-- Reducer `createRound`: unconditionally inserts a new round with
status `open` and appends a `round_created` log.  The log detail mirrors
the source template, where `blockNumber ? ... : 'N/A'` treats the bigint
`0n` as falsy. -/
def createRound (roundNumber durationMinutes : Nat) (prize : String)
    (blockNumber : Option Nat) (now : Nat) (db : DB) : DB :=
  let roundId := db.roundIdCounter
  let startTime := now
  let endTime := now + durationMinutes * 60
  let round : Round :=
    { roundId := roundId, roundNumber := roundNumber
      startTime := startTime, endTime := endTime
      durationMinutes := durationMinutes, prize := prize
      status := RoundStatus.statusOpen, blockNumber := blockNumber
      actualTxCount := none, winningFid := none, blockHash := none
      createdAt := now }
  let blockNumStr :=
    match blockNumber with
    | some b => if b == 0 then "N/A" else "#" ++ toString b
    | none => "N/A"
  let details :=
    "Round #" ++ toString roundNumber ++ " created for Block " ++ blockNumStr
      ++ " with prize " ++ prize ++ " - Duration: "
      ++ toString durationMinutes ++ " minutes"
  let db1 := { db with rounds := db.rounds ++ [round]
                       roundIdCounter := db.roundIdCounter + 1 }
  addLog evRoundCreated details now db1

/-- Reducer `submitGuess`: the store layer performs no precondition
checks; it always inserts the guess (`pfpUrl || ''`) and appends a
`guess_submitted` log. -/
def submitGuess (roundId fid : Nat) (username : String) (guess : Nat)
    (pfpUrl : Option String) (now : Nat) (db : DB) : DB :=
  let guessEntry : Guess :=
    { guessId := db.guessIdCounter, roundId := roundId, fid := fid
      username := username, guess := guess
      pfpUrl := (match pfpUrl with | some s => s | none => "")
      submittedAt := now }
  let details := username ++ " predicted " ++ toString guess ++ " transactions"
  let db1 := { db with guesses := db.guesses ++ [guessEntry]
                       guessIdCounter := db.guessIdCounter + 1 }
  addLog evGuessSubmitted details now db1

/-- Reducer `sendChatMessage`: unconditionally inserts the message and
notifies insert listeners with the new row.  It appends no log. -/
def sendChatMessage (roundId address username message pfpUrl msgType : String)
    (now : Nat) (db : DB) : DB × ChatMsg :=
  let chatMsg : ChatMsg :=
    { chatId := db.chatIdCounter, roundId := roundId, address := address
      username := username, message := message, pfpUrl := pfpUrl
      timestamp := now, msgType := msgType }
  ({ db with chatMessages := db.chatMessages ++ [chatMsg]
             chatIdCounter := db.chatIdCounter + 1 }, chatMsg)

/-- Reducer `endRoundManually`: if the round is absent, logs an error and
returns with no mutation; otherwise it sets `status = 'closed'`
(with no check of the current status) and appends a `round_ended` log. -/
def endRoundManually (roundId : Nat) (now : Nat) (db : DB) : DB :=
  match findRound roundId db.rounds with
  | none => db
  | some round =>
      let newRound := { round with status := RoundStatus.statusClosed }
      let details := "Round " ++ toString roundId ++ " has been closed"
      let db1 := { db with rounds := setRound roundId newRound db.rounds }
      addLog evRoundEnded details now db1

/-- Reducer `updateRoundResult`: if the round is absent, returns with no
mutation; otherwise it sets `status = 'finished'`, populates
`actualTxCount`, `blockHash` and `winningFid` (with no check of the
current status, so a second call overwrites), and appends a
`round_finished` log. -/
def updateRoundResult (roundId actualTxCount : Nat) (blockHash : String)
    (winningFid : Nat) (now : Nat) (db : DB) : DB :=
  match findRound roundId db.rounds with
  | none => db
  | some round =>
      let newRound :=
        { round with status := RoundStatus.statusFinished
                     actualTxCount := some actualTxCount
                     blockHash := some blockHash
                     winningFid := some winningFid }
      let details := "Round " ++ toString roundId ++ " finished - Winner determined!"
      let db1 := { db with rounds := setRound roundId newRound db.rounds }
      addLog evRoundFinished details now db1

/-- Which listener set `savePrizeConfig` notifies, with its payload:
insert listeners get the new row; update listeners get
`(existingConfigs[0], newRow)` — the FIRST stored row as the old value. -/
inductive PrizeNotify where
  | insertNotify (row : PrizeConfig)
  | updateNotify (oldRow newRow : PrizeConfig)
deriving DecidableEq, Repr

/-- Reducer `savePrizeConfig`: builds a row under the NEXT `configId` and
`Map.set`s it under that fresh key — both branches insert a new row, the
table is never updated in place.  The branch only selects which listener
set fires.  One `prize_config_saved` log is appended. -/
def savePrizeConfig (jackpotAmount firstPlaceAmount secondPlaceAmount : Nat)
    (currencyType tokenContractAddress : String) (now : Nat) (db : DB) :
    DB × PrizeNotify :=
  let configId := db.configIdCounter
  let config : PrizeConfig :=
    { configId := configId, jackpotAmount := jackpotAmount
      firstPlaceAmount := firstPlaceAmount
      secondPlaceAmount := secondPlaceAmount
      currencyType := currencyType
      tokenContractAddress := tokenContractAddress, updatedAt := now }
  let details :=
    "Prize config updated - Jackpot: " ++ toString jackpotAmount ++ " "
      ++ currencyType ++ ", 1st: " ++ toString firstPlaceAmount ++ ", 2nd: "
      ++ toString secondPlaceAmount ++ " " ++ currencyType
  let db1 := { db with prizeConfigs := db.prizeConfigs ++ [config]
                       configIdCounter := db.configIdCounter + 1 }
  let db2 := addLog evPrizeConfigSaved details now db1
  match db.prizeConfigs with
  | [] => (db2, PrizeNotify.insertNotify config)
  | oldConfig :: _ => (db2, PrizeNotify.updateNotify oldConfig config)

/-- `prizeConfigs_table.getLatest`: the last stored row, or `null`. -/
def getLatest (db : DB) : Option PrizeConfig :=
  db.prizeConfigs.getLast?

end MockDatabase

/-- One store-level reducer invocation (the mutation surface of
`MockDatabase`). -/
inductive Op where
  | createRound (roundNumber durationMinutes : Nat) (prize : String)
      (blockNumber : Option Nat)
  | submitGuess (roundId fid : Nat) (username : String) (guess : Nat)
      (pfpUrl : Option String)
  | sendChatMessage (roundId address username message pfpUrl msgType : String)
  | endRoundManually (roundId : Nat)
  | updateRoundResult (roundId actualTxCount : Nat) (blockHash : String)
      (winningFid : Nat)
  | savePrizeConfig (jackpotAmount firstPlaceAmount secondPlaceAmount : Nat)
      (currencyType tokenContractAddress : String)
deriving DecidableEq, Repr

/-- Apply one reducer call to the store. -/
def applyOp (op : Op) (now : Nat) (db : DB) : DB :=
  match op with
  | Op.createRound rn dm prize bn => MockDatabase.createRound rn dm prize bn now db
  | Op.submitGuess rid fid u g p => MockDatabase.submitGuess rid fid u g p now db
  | Op.sendChatMessage rid a u m p t =>
      (MockDatabase.sendChatMessage rid a u m p t now db).1
  | Op.endRoundManually rid => MockDatabase.endRoundManually rid now db
  | Op.updateRoundResult rid c h w => MockDatabase.updateRoundResult rid c h w now db
  | Op.savePrizeConfig j f s c t => (MockDatabase.savePrizeConfig j f s c t now db).1

/-- Numeric rank of a status under the order open < closed < finished. -/
def statusRank : RoundStatus → Nat
  | RoundStatus.statusOpen => 0
  | RoundStatus.statusClosed => 1
  | RoundStatus.statusFinished => 2

/-- `a ≤ b` in the round-lifecycle order. -/
def statusLe (a b : RoundStatus) : Prop := statusRank a ≤ statusRank b

instance : DecidableRel statusLe := fun a b => by
  unfold statusLe; infer_instance

/-- Number of rounds whose status is open. -/
def countOpenRounds (db : DB) : Nat :=
  (db.rounds.filter (fun r => r.status == RoundStatus.statusOpen)).length

/-! ### Address encoding (GameContext)

`convertGuess` / `convertRound` display a user id as
`'0x' + fid.toString(16).padStart(40, '0')`; `submitGuess` /
`updateRoundResult` recover the id with
`BigInt('0x' + address.slice(2))` after a case-insensitive `0x` check. -/

/-- Lowercase hex digit character for `d < 16` (JS
`Number.prototype.toString(16)` digits). -/
def hexDigitChar (d : Nat) : Char :=
  if d < 10 then Char.ofNat (48 + d) else Char.ofNat (97 + (d - 10))

/-- Digit recursion with explicit fuel (`fuel ≥ n` suffices), so that the
definition is structurally recursive and computes in the kernel. -/
def natToHexCharsAux : Nat → Nat → List Char
  | 0, n => [hexDigitChar n]
  | fuel + 1, n =>
    if n < 16 then [hexDigitChar n]
    else natToHexCharsAux fuel (n / 16) ++ [hexDigitChar (n % 16)]

/-- Big-endian lowercase hex digits of `n` (`n.toString(16)`,
so `0` renders as the single digit `0`). -/
def natToHexChars (n : Nat) : List Char := natToHexCharsAux n n

/-- `String.prototype.padStart(k, '0')`: left-pad with zeros up to
length `k`; a longer input is returned unchanged. -/
def padLeftZeros (k : Nat) (l : List Char) : List Char :=
  List.replicate (k - l.length) '0' ++ l

/-- The `'0x' + fid.toString(16).padStart(40, '0')` display encoding. -/
def encodeAddress (fid : Nat) : String :=
  String.mk ('0' :: 'x' :: padLeftZeros 40 (natToHexChars fid))

/-- Value of one hex digit (`BigInt` hex literals accept both cases). -/
def hexDigitVal (c : Char) : Option Nat :=
  if 48 ≤ c.toNat ∧ c.toNat ≤ 57 then some (c.toNat - 48)
  else if 97 ≤ c.toNat ∧ c.toNat ≤ 102 then some (c.toNat - 87)
  else if 65 ≤ c.toNat ∧ c.toNat ≤ 70 then some (c.toNat - 55)
  else none

/-- One step of the hex-literal accumulator: fail on a non-hex
character, otherwise shift and add. -/
def hexStep (acc : Option Nat) (c : Char) : Option Nat :=
  acc.bind fun a => (hexDigitVal c).map fun v => a * 16 + v

/-- `BigInt('0x' + digits)`: `none` models the thrown `SyntaxError`
(empty digit list or a non-hex character). -/
def parseHexChars (l : List Char) : Option Nat :=
  match l with
  | [] => none
  | _ => l.foldl hexStep (some 0)

/-- `address.toLowerCase().startsWith('0x') ? address.slice(2) : address`:
drop a leading `0x` / `0X` marker (the check lowercases, the slice keeps
the original characters). -/
def stripHexMark : List Char → List Char
  | c1 :: c2 :: rest =>
      if c1.toLower = '0' ∧ c2.toLower = 'x' then rest else c1 :: c2 :: rest
  | l => l

/-- The decoding applied to a caller-facing address before it reaches the
store (`submitGuess`, `updateRoundResult` in GameContext). -/
def decodeAddress (s : String) : Option Nat :=
  parseHexChars (stripHexMark s.data)

/-- Value of one decimal digit. -/
def decDigitVal (c : Char) : Option Nat :=
  if 48 ≤ c.toNat ∧ c.toNat ≤ 57 then some (c.toNat - 48) else none

/-- One step of the decimal accumulator. -/
def decStep (acc : Option Nat) (c : Char) : Option Nat :=
  acc.bind fun a => (decDigitVal c).map fun v => a * 10 + v

/-- `BigInt(decimalString)` as applied to the view's round ids (decimal
digit strings produced by `String(roundId)`); `none` models the thrown
`SyntaxError` on a malformed id. -/
def strToNat (s : String) : Option Nat :=
  match s.data with
  | [] => none
  | l => l.foldl decStep (some 0)

/-! ### Converted (caller-facing) records -/

/-- `toMillis`: store timestamps are seconds, the view uses milliseconds. -/
def toMillis (s : Nat) : Nat := s * 1000

/-- JS truthiness on an optional numeric field: `x ? f(x) : undefined`
collapses `0` to `undefined`. -/
def truthyNat : Option Nat → Option Nat
  | some n => if n = 0 then none else some n
  | none => none

/-- JS truthiness on an optional string field (`r.blockHash || undefined`):
the empty string collapses to `undefined`. -/
def truthyStr : Option String → Option String
  | some s => if s = "" then none else some s
  | none => none

/-- Caller-facing `Round` (src/types/game.ts). -/
structure ViewRound where
  id : String
  roundNumber : Nat
  startTime : Nat
  endTime : Nat
  prize : String
  status : RoundStatus
  blockNumber : Option Nat
  actualTxCount : Option Nat
  winningAddress : Option String
  blockHash : Option String
  createdAt : Nat
  duration : Nat
deriving DecidableEq, Repr

/-- Caller-facing `Guess` (src/types/game.ts). -/
structure ViewGuess where
  id : String
  roundId : String
  address : String
  username : String
  guess : Nat
  pfpUrl : String
  submittedAt : Nat
deriving DecidableEq, Repr

/-- Caller-facing `ChatMessage` (src/types/game.ts). -/
structure ViewChatMsg where
  id : String
  roundId : String
  address : String
  username : String
  message : String
  pfpUrl : String
  timestamp : Nat
  type : String
deriving DecidableEq, Repr

/-- `convertRound` (GameContext): note the truthiness collapses on
`blockNumber` / `actualTxCount` / `winningFid` / `blockHash`. -/
def convertRound (r : Round) : ViewRound :=
  { id := toString r.roundId
    roundNumber := r.roundNumber
    startTime := toMillis r.startTime
    endTime := toMillis r.endTime
    prize := r.prize
    status := r.status
    blockNumber := truthyNat r.blockNumber
    actualTxCount := truthyNat r.actualTxCount
    winningAddress :=
      match r.winningFid with
      | some f => if f = 0 then none else some (encodeAddress f)
      | none => none
    blockHash := truthyStr r.blockHash
    createdAt := toMillis r.createdAt
    duration := r.durationMinutes }

/-- `convertGuess` (GameContext). -/
def convertGuess (g : Guess) : ViewGuess :=
  { id := toString g.guessId
    roundId := toString g.roundId
    address := encodeAddress g.fid
    username := g.username
    guess := g.guess
    pfpUrl := g.pfpUrl
    submittedAt := toMillis g.submittedAt }

/-- `convertChatMsg` (GameContext). -/
def convertChatMsg (c : ChatMsg) : ViewChatMsg :=
  { id := toString c.chatId
    roundId := c.roundId
    address := c.address
    username := c.username
    message := c.message
    pfpUrl := c.pfpUrl
    timestamp := toMillis c.timestamp
    type := c.msgType }

/-- The `rounds` React state as mirrored from the store tables
(initial load plus insert/update subscriptions). -/
def viewRounds (db : DB) : List ViewRound := db.rounds.map convertRound

/-- The `guesses` React state as mirrored from the store tables. -/
def viewGuesses (db : DB) : List ViewGuess := db.guesses.map convertGuess

/-- `const activeRound = rounds.find(r => r.status === 'open') || null`. -/
def activeRound (rounds : List ViewRound) : Option ViewRound :=
  rounds.find? (fun r => r.status == RoundStatus.statusOpen)

/-! ### Lifecycle layer (GameContext reducers)

These model the caller-facing reducers on the connected path (the
`!client || !connected` guard is a session-environment concern outside
the state embedded here). -/

/-- Outcome of the caller-facing `submitGuess`, one tag per refusal
branch (the TS function returns `false` with a distinguishing console
warning; `submitFailed` is the catch-all for a thrown conversion). -/
inductive SubmitOutcome where
  | roundNotOpen
  | roundExpired
  | alreadyGuessed
  | submitFailed
  | submitted
deriving DecidableEq, Repr

/-- Caller-facing `submitGuess` (GameContext): checks, in order, that the
round exists and is open, that `now < round.endTime`, and that the user
has not already guessed for this round (case-insensitive address
comparison); only then does it decode the address, parse the round id and
invoke the store reducer.  `nowMs` is the millisecond clock used by the
expiry check, `nowSec` the second clock the store stamps rows with. -/
def lifecycleSubmitGuess (db : DB) (roundId address username : String)
    (guess : Nat) (pfpUrl : String) (nowMs nowSec : Nat) :
    SubmitOutcome × DB :=
  match (viewRounds db).find? (fun r => r.id == roundId) with
  | none => (SubmitOutcome.roundNotOpen, db)
  | some round =>
    if round.status ≠ RoundStatus.statusOpen then
      (SubmitOutcome.roundNotOpen, db)
    else if round.endTime ≤ nowMs then
      (SubmitOutcome.roundExpired, db)
    else if (viewGuesses db).any
        (fun g => g.roundId == roundId && g.address.toLower == address.toLower) then
      (SubmitOutcome.alreadyGuessed, db)
    else
      match decodeAddress address, strToNat roundId with
      | some fid, some rid =>
          (SubmitOutcome.submitted,
            MockDatabase.submitGuess rid fid username guess
              (if pfpUrl = "" then none else some pfpUrl) nowSec db)
      | _, _ => (SubmitOutcome.submitFailed, db)

/-- Caller-facing `endRound` (GameContext): refuses (returns `false`)
unless the round exists in the view and is open; otherwise parses the id
and invokes the store reducer `endRoundManually`. -/
def lifecycleEndRound (db : DB) (roundId : String) (nowSec : Nat) :
    Bool × DB :=
  match (viewRounds db).find? (fun r => r.id == roundId) with
  | none => (false, db)
  | some round =>
    if round.status ≠ RoundStatus.statusOpen then (false, db)
    else
      match strToNat roundId with
      | some rid => (true, MockDatabase.endRoundManually rid nowSec db)
      | none => (false, db)

/-- Caller-facing `updateRoundResult` (GameContext): no status check at
all; decodes the winning address and parses the round id (a failed
conversion throws, modelled as `none`), then invokes the store reducer. -/
def lifecycleUpdateRoundResult (db : DB) (roundId : String)
    (actualTxCount : Nat) (blockHash winningAddress : String)
    (nowSec : Nat) : Option DB :=
  match decodeAddress winningAddress, strToNat roundId with
  | some fid, some rid =>
      some (MockDatabase.updateRoundResult rid actualTxCount blockHash fid nowSec db)
  | _, _ => none

/-! ### Winner-resolution engine (the polling tick in GameContext) -/

/-- What the block-data source yields once the target block is mined:
its hash and `txids.length`. -/
structure BlockInfo where
  blockHash : String
  txCount : Nat
deriving DecidableEq, Repr

/-- `Math.abs(g.guess - actualTxCount)` in exact integer arithmetic. -/
def guessDist (g : ViewGuess) (actualTxCount : Nat) : Nat :=
  ((g.guess : Int) - (actualTxCount : Int)).natAbs

/-- The sort comparator of the tick: strictly smaller absolute distance,
or equal distance and strictly earlier submission. -/
def winnerKeyLt (actual : Nat) (a b : ViewGuess) : Prop :=
  guessDist a actual < guessDist b actual ∨
    (guessDist a actual = guessDist b actual ∧ a.submittedAt < b.submittedAt)

instance (actual : Nat) (a b : ViewGuess) : Decidable (winnerKeyLt actual a b) := by
  unfold winnerKeyLt; infer_instance

/-- `sorted[0]` of the tick's stable sort under the comparator above: the
first element of the list that is minimal in the lexicographic preorder
(absolute distance, then submission time).  A fold that replaces the
running best only on a strictly smaller key computes exactly that
element. -/
def selectWinner (actual : Nat) (g0 : ViewGuess) (rest : List ViewGuess) :
    ViewGuess :=
  rest.foldl (fun best g => if winnerKeyLt actual g best then g else best) g0

def zeroSentinel : String := "0x0"

def globalChannel : String := "global"

def winnerMsgType : String := "winner"

/-- The winner-announcement text (locale digit grouping and emoji of the
source template are abstracted; the announced fields are the same). -/
def winnerMessage (username : String) (guessVal actual target : Nat) : String :=
  "Winner: @" ++ username ++ " - guess " ++ toString guessVal
    ++ " vs actual " ++ toString actual ++ " tx - block #" ++ toString target

/-- One execution of the polling tick body for round `roundRef`:
if not cancelled and the block is available it (1) calls the lifecycle
`endRound` (whose refusal, if the round is no longer open, is ignored),
(2) computes the winner over the round's guesses in the view, (3) calls
`updateRoundResult` — with the sentinel `0x0` when no guesses exist —
and (4) posts the winner announcement to the global chat.  Any throw in
(3) is caught, leaving the state as of (1).  There is no status check
between (1) and (3). -/
def engineTick (db : DB) (roundRef : ViewRound) (cancelled : Bool)
    (block : Option BlockInfo) (nowSec : Nat) : DB :=
  if cancelled then db
  else
    match block with
    | none => db
    | some info =>
      let db1 := (lifecycleEndRound db roundRef.id nowSec).2
      let roundGuesses :=
        (viewGuesses db1).filter (fun g => g.roundId == roundRef.id)
      match roundGuesses with
      | [] =>
        match lifecycleUpdateRoundResult db1 roundRef.id info.txCount
            info.blockHash zeroSentinel nowSec with
        | some db2 => db2
        | none => db1
      | g0 :: rest =>
        let winner := selectWinner info.txCount g0 rest
        match lifecycleUpdateRoundResult db1 roundRef.id info.txCount
            info.blockHash winner.address nowSec with
        | none => db1
        | some db2 =>
          (MockDatabase.sendChatMessage globalChannel winner.address
            winner.username
            (winnerMessage winner.username winner.guess info.txCount
              (roundRef.blockNumber.getD 0))
            winner.pfpUrl winnerMsgType nowSec db2).1

/-- Engine state as the effect holds it: the store plus whether the
polling interval for the current round is still scheduled. -/
structure EngineState where
  db : DB
  intervalActive : Bool
deriving DecidableEq, Repr

/-- One timer-driven tick: a cleared interval never fires, and the
`finally clearInterval(interval)` of a tick that observed the block
clears the interval, making it single-shot. -/
def timerTick (roundRef : ViewRound) (block : Option BlockInfo)
    (nowSec : Nat) (s : EngineState) : EngineState :=
  if s.intervalActive = false then s
  else
    match block with
    | none => s
    | some info =>
      { db := engineTick s.db roundRef false (some info) nowSec
        intervalActive := false }

/-! ### Chat view (the chat subscription handler in GameContext) -/

/-- Arguments of one `addChatMessage` call, with the store clock value
(seconds) at the time of the call. -/
structure ChatCall where
  roundId : String
  address : String
  username : String
  message : String
  pfpUrl : String
  msgType : String
  time : Nat
deriving DecidableEq, Repr

/-- The `onInsert` handler of the chat subscription: skip a message whose
id is already present, otherwise prepend and truncate to the most recent
100 (`[converted, ...prev].slice(0, 100)`). -/
def chatInsertStep (prev : List ViewChatMsg) (m : ViewChatMsg) :
    List ViewChatMsg :=
  if prev.any (fun c => c.id == m.id) then prev else (m :: prev).take 100

/-- Run a sequence of `addChatMessage` calls against the store, feeding
each inserted row through the subscription handler into the view. -/
def runChatCalls : List ChatCall → DB × List ViewChatMsg → DB × List ViewChatMsg
  | [], s => s
  | c :: cs, (db, view) =>
    let out := MockDatabase.sendChatMessage c.roundId c.address c.username
      c.message c.pfpUrl c.msgType c.time db
    runChatCalls cs (out.1, chatInsertStep view (convertChatMsg out.2))

/-- Nonincreasing timestamps front-to-back: most recent first. -/
def sortedDescTs (l : List ViewChatMsg) : Prop :=
  List.Chain' (fun a b => b.timestamp ≤ a.timestamp) l

instance (l : List ViewChatMsg) : Decidable (sortedDescTs l) := by
  unfold sortedDescTs; infer_instance

/-- The call times are nondecreasing and bounded below by `t`
(the single session clock never runs backwards). -/
def timesOK : Nat → List ChatCall → Prop
  | _, [] => True
  | t, c :: cs => t ≤ c.time ∧ timesOK c.time cs

instance instDecTimesOK : (t : Nat) → (cs : List ChatCall) → Decidable (timesOK t cs)
  | _, [] => Decidable.isTrue trivial
  | t, c :: cs =>
    have : Decidable (timesOK c.time cs) := instDecTimesOK c.time cs
    by unfold timesOK; infer_instance

/-! ### Basic lemmas about round lookup and replacement -/

theorem findRound_spec {rid : Nat} {l : List Round} {r : Round}
    (h : findRound rid l = some r) : r.roundId = rid := by
  have hp := List.find?_some h
  simpa using hp

theorem findRound_append_left {rid : Nat} {l1 l2 : List Round} {r : Round}
    (h : findRound rid l1 = some r) : findRound rid (l1 ++ l2) = some r := by
  unfold findRound at *
  rw [List.find?_append, h]
  rfl

theorem findRound_cons (rid : Nat) (x : Round) (xs : List Round) :
    findRound rid (x :: xs) =
      if x.roundId = rid then some x else findRound rid xs := by
  unfold findRound
  rw [List.find?_cons]
  by_cases hx : x.roundId = rid
  · simp [hx]
  · have hb : (x.roundId == rid) = false := beq_eq_false_iff_ne.mpr hx
    simp [hb, hx]

theorem setRound_cons (rid : Nat) (nr x : Round) (xs : List Round) :
    setRound rid nr (x :: xs) =
      (if x.roundId = rid then nr else x) :: setRound rid nr xs := by
  unfold setRound
  by_cases hx : x.roundId = rid <;> simp [hx]

theorem findRound_setRound_self (nr : Round) {rid : Nat} (hnr : nr.roundId = rid) :
    ∀ {l : List Round} {r : Round}, findRound rid l = some r →
      findRound rid (setRound rid nr l) = some nr := by
  intro l
  induction l with
  | nil => intro r h; simp [findRound] at h
  | cons x xs ih =>
    intro r h
    by_cases hx : x.roundId = rid
    · rw [setRound_cons, if_pos hx, findRound_cons, if_pos hnr]
    · rw [setRound_cons, if_neg hx, findRound_cons, if_neg hx]
      rw [findRound_cons, if_neg hx] at h
      exact ih h

theorem findRound_setRound_ne (nr : Round) {rid rid2 : Nat} (hne : rid ≠ rid2)
    (hnr : nr.roundId = rid2) :
    ∀ {l : List Round}, findRound rid (setRound rid2 nr l) = findRound rid l := by
  intro l
  induction l with
  | nil => rfl
  | cons x xs ih =>
    by_cases hx : x.roundId = rid2
    · have hxr : x.roundId ≠ rid := by rw [hx]; exact Ne.symm hne
      have hnrr : nr.roundId ≠ rid := by rw [hnr]; exact Ne.symm hne
      rw [setRound_cons, if_pos hx, findRound_cons, if_neg hnrr,
        findRound_cons, if_neg hxr]
      exact ih
    · rw [setRound_cons, if_neg hx, findRound_cons, findRound_cons]
      by_cases hy : x.roundId = rid
      · rw [if_pos hy, if_pos hy]
      · rw [if_neg hy, if_neg hy]
        exact ih

theorem statusLe_refl (s : RoundStatus) : statusLe s s := Nat.le_refl _

theorem statusLe_finished (s : RoundStatus) :
    statusLe s RoundStatus.statusFinished := by
  cases s <;> decide

theorem addLog_rounds (e d : String) (now : Nat) (db : DB) :
    (MockDatabase.addLog e d now db).rounds = db.rounds := rfl

theorem submitGuess_rounds (rid fid : Nat) (u : String) (g : Nat)
    (p : Option String) (now : Nat) (db : DB) :
    (MockDatabase.submitGuess rid fid u g p now db).rounds = db.rounds := rfl

theorem sendChatMessage_rounds (rid a u m p t : String) (now : Nat) (db : DB) :
    (MockDatabase.sendChatMessage rid a u m p t now db).1.rounds = db.rounds := rfl

theorem savePrizeConfig_rounds (j f s : Nat) (c t : String) (now : Nat) (db : DB) :
    (MockDatabase.savePrizeConfig j f s c t now db).1.rounds = db.rounds := by
  unfold MockDatabase.savePrizeConfig
  cases db.prizeConfigs <;> rfl

theorem createRound_rounds (rn dm : Nat) (p : String) (bn : Option Nat)
    (now : Nat) (db : DB) :
    ∃ newR, (MockDatabase.createRound rn dm p bn now db).rounds
      = db.rounds ++ [newR] :=
  ⟨_, rfl⟩

theorem endRoundManually_rounds_none {rid now : Nat} {db : DB}
    (h : findRound rid db.rounds = none) :
    (MockDatabase.endRoundManually rid now db).rounds = db.rounds := by
  unfold MockDatabase.endRoundManually
  rw [h]

theorem endRoundManually_rounds_some {rid now : Nat} {db : DB} {r : Round}
    (h : findRound rid db.rounds = some r) :
    (MockDatabase.endRoundManually rid now db).rounds
      = setRound rid { r with status := RoundStatus.statusClosed } db.rounds := by
  unfold MockDatabase.endRoundManually
  rw [h]
  rfl

theorem updateRoundResult_rounds_none {rid c now : Nat} {bh : String}
    {w : Nat} {db : DB} (h : findRound rid db.rounds = none) :
    (MockDatabase.updateRoundResult rid c bh w now db).rounds = db.rounds := by
  unfold MockDatabase.updateRoundResult
  rw [h]

theorem updateRoundResult_rounds_some {rid c now : Nat} {bh : String}
    {w : Nat} {db : DB} {r : Round} (h : findRound rid db.rounds = some r) :
    (MockDatabase.updateRoundResult rid c bh w now db).rounds
      = setRound rid
          { r with status := RoundStatus.statusFinished
                   actualTxCount := some c, blockHash := some bh
                   winningFid := some w } db.rounds := by
  unfold MockDatabase.updateRoundResult
  rw [h]
  rfl

/-- C1 amended, single-step form: one store-reducer call never decreases
a round's status — except that `endRoundManually`, applied to a round
that is already `finished`, moves it back to `closed` (the store applies
no status precondition).  In particular no call ever returns a round to
`open`. -/
theorem c1_status_monotone_except (op : Op) (now : Nat) (db : DB) (rid : Nat)
    (r r' : Round)
    (h : findRound rid db.rounds = some r)
    (h' : findRound rid (applyOp op now db).rounds = some r') :
    statusLe r.status r'.status ∨
      (op = Op.endRoundManually rid ∧ r.status = RoundStatus.statusFinished ∧
        r'.status = RoundStatus.statusClosed) := by
  cases op with
  | createRound rn dm prize bn =>
    simp only [applyOp] at h'
    obtain ⟨nr, hnr⟩ := createRound_rounds rn dm prize bn now db
    rw [hnr, findRound_append_left h] at h'
    injection h' with e
    subst e
    exact Or.inl (statusLe_refl _)
  | submitGuess a b cc dd ee =>
    simp only [applyOp] at h'
    rw [submitGuess_rounds, h] at h'
    injection h' with e
    subst e
    exact Or.inl (statusLe_refl _)
  | sendChatMessage a b cc dd ee ff =>
    simp only [applyOp] at h'
    rw [sendChatMessage_rounds, h] at h'
    injection h' with e
    subst e
    exact Or.inl (statusLe_refl _)
  | savePrizeConfig a b cc dd ee =>
    simp only [applyOp] at h'
    rw [savePrizeConfig_rounds, h] at h'
    injection h' with e
    subst e
    exact Or.inl (statusLe_refl _)
  | endRoundManually rid2 =>
    simp only [applyOp] at h'
    cases hfind : findRound rid2 db.rounds with
    | none =>
      rw [endRoundManually_rounds_none hfind, h] at h'
      injection h' with e
      subst e
      exact Or.inl (statusLe_refl _)
    | some r2 =>
      have hr2 : r2.roundId = rid2 := findRound_spec hfind
      rw [endRoundManually_rounds_some hfind] at h'
      by_cases hrr : rid = rid2
      · subst hrr
        rw [h] at hfind
        injection hfind with e
        subst e
        rw [findRound_setRound_self
          ({ r with status := RoundStatus.statusClosed }) hr2 h] at h'
        injection h' with e2
        subst e2
        cases hst : r.status with
        | statusOpen => exact Or.inl (Nat.zero_le _)
        | statusClosed => exact Or.inl (statusLe_refl _)
        | statusFinished => exact Or.inr ⟨rfl, rfl, rfl⟩
      · rw [findRound_setRound_ne
          ({ r2 with status := RoundStatus.statusClosed }) hrr hr2, h] at h'
        injection h' with e
        subst e
        exact Or.inl (statusLe_refl _)
  | updateRoundResult rid2 cc hh ww =>
    simp only [applyOp] at h'
    cases hfind : findRound rid2 db.rounds with
    | none =>
      rw [updateRoundResult_rounds_none hfind, h] at h'
      injection h' with e
      subst e
      exact Or.inl (statusLe_refl _)
    | some r2 =>
      have hr2 : r2.roundId = rid2 := findRound_spec hfind
      rw [updateRoundResult_rounds_some hfind] at h'
      by_cases hrr : rid = rid2
      · subst hrr
        rw [findRound_setRound_self
          ({ r2 with status := RoundStatus.statusFinished
                     actualTxCount := some cc, blockHash := some hh
                     winningFid := some ww }) hr2 hfind] at h'
        injection h' with e2
        subst e2
        exact Or.inl (statusLe_finished _)
      · rw [findRound_setRound_ne
          ({ r2 with status := RoundStatus.statusFinished
                     actualTxCount := some cc, blockHash := some hh
                     winningFid := some ww }) hrr hr2, h] at h'
        injection h' with e
        subst e
        exact Or.inl (statusLe_refl _)

/-- Round 1 created at t=10, finalized at t=20. -/
def c1Seq2 : DB :=
  applyOp (Op.updateRoundResult 1 500 "hashA" 7) 20
    (applyOp (Op.createRound 1 10 "BTC" (some 900000)) 10 initialDB)

/-- ... and then `endRoundManually` at t=30, after it was finished. -/
def c1Seq3 : DB := applyOp (Op.endRoundManually 1) 30 c1Seq2

/-- C1 counterexample: a sequence of reducer calls under which round 1
moves from `finished` back to `closed` — `createRound`, then
`updateRoundResult`, then `endRoundManually`, which closes the round with
no status check.  Status is therefore not monotonic non-decreasing. -/
theorem c1_counterexample :
    (findRound 1 c1Seq2.rounds).map Round.status
        = some RoundStatus.statusFinished ∧
      (findRound 1 c1Seq3.rounds).map Round.status
        = some RoundStatus.statusClosed := by
  decide

/-- The finished state of round 1 in `c1Seq2`. -/
def c1RoundFin : Round :=
  { roundId := 1, roundNumber := 1, startTime := 10, endTime := 610
    durationMinutes := 10, prize := "BTC"
    status := RoundStatus.statusFinished, blockNumber := some 900000
    actualTxCount := some 500, winningFid := some 7
    blockHash := some ("hashA"), createdAt := 10 }

/-- The same round after the out-of-order `endRoundManually`. -/
def c1RoundClosed : Round :=
  { c1RoundFin with status := RoundStatus.statusClosed }

/-- Witness for the C1 amended theorem at a concrete input. -/
theorem c1_status_monotone_except_witness :
    (findRound 1 c1Seq2.rounds = some c1RoundFin ∧
      findRound 1 (applyOp (Op.endRoundManually 1) 30 c1Seq2).rounds
        = some c1RoundClosed) ∧
    (statusLe c1RoundFin.status c1RoundClosed.status ∨
      (Op.endRoundManually 1 = Op.endRoundManually 1 ∧
        c1RoundFin.status = RoundStatus.statusFinished ∧
        c1RoundClosed.status = RoundStatus.statusClosed)) :=
  ⟨⟨by decide, by decide⟩,
    c1_status_monotone_except (Op.endRoundManually 1) 30 c1Seq2 1
      c1RoundFin c1RoundClosed (by decide) (by decide)⟩

/-- Two `createRound` calls with no other traffic. -/
def c5TwoOpen : DB :=
  applyOp (Op.createRound 2 10 "B" none) 11
    (applyOp (Op.createRound 1 10 "A" none) 10 initialDB)

/-- C5 counterexample: `createRound` never checks for an existing open
round, so after two calls two rounds have status `open` simultaneously —
the derived-singleton invariant fails. -/
theorem c5_counterexample : countOpenRounds c5TwoOpen = 2 := by decide

/-- C5 amended: multiple rounds may be open at once, and the caller-facing
`activeRound` is the derived first match, in table-scan (insertion)
order, among rounds with status `open`. -/
theorem c5_active_round_first_open (db : DB) :
    activeRound (viewRounds db) =
      (db.rounds.find? (fun r => r.status == RoundStatus.statusOpen)).map
        convertRound := by
  unfold activeRound viewRounds
  rw [List.find?_map]
  rfl

/-- The number of `LogEvent` rows a store reducer call appends: one for
each unconditional reducer, one for `endRoundManually` /
`updateRoundResult` exactly when the round exists, and none for
`sendChatMessage`. -/
def logDelta (op : Op) (db : DB) : Nat :=
  match op with
  | Op.sendChatMessage _ _ _ _ _ _ => 0
  | Op.endRoundManually rid =>
      if (findRound rid db.rounds).isSome then 1 else 0
  | Op.updateRoundResult rid _ _ _ =>
      if (findRound rid db.rounds).isSome then 1 else 0
  | _ => 1

/-- C7 amended: each store reducer appends exactly `logDelta` log rows:
one per successful call for `createRound`, `submitGuess`,
`endRoundManually`, `updateRoundResult` and `savePrizeConfig` — but
`sendChatMessage`, although it succeeds and inserts its message, appends
no log at all. -/
theorem c7_log_append_count (op : Op) (now : Nat) (db : DB) :
    (applyOp op now db).logs.length = db.logs.length + logDelta op db := by
  cases op with
  | createRound rn dm prize bn =>
    simp [applyOp, MockDatabase.createRound, MockDatabase.addLog, logDelta]
  | submitGuess a b c d e =>
    simp [applyOp, MockDatabase.submitGuess, MockDatabase.addLog, logDelta]
  | sendChatMessage a b c d e f =>
    simp [applyOp, MockDatabase.sendChatMessage, logDelta]
  | endRoundManually rid =>
    simp only [applyOp, MockDatabase.endRoundManually, logDelta]
    cases hfind : findRound rid db.rounds with
    | none => simp [hfind]
    | some r => simp [hfind, MockDatabase.addLog]
  | updateRoundResult rid c h w =>
    simp only [applyOp, MockDatabase.updateRoundResult, logDelta]
    cases hfind : findRound rid db.rounds with
    | none => simp [hfind]
    | some r => simp [hfind, MockDatabase.addLog]
  | savePrizeConfig j f s c t =>
    simp only [applyOp, MockDatabase.savePrizeConfig, logDelta]
    cases db.prizeConfigs <;> simp [MockDatabase.addLog]

/-- One chat message sent to the fresh store. -/
def c7ChatState : DB :=
  applyOp (Op.sendChatMessage "global" "0xabc" "alice" "gm" "" "chat") 5 initialDB

/-- C7 counterexample: a successful `sendChatMessage` (the message row is
inserted) appends no `LogEvent`, contradicting one-log-per-successful-
reducer. -/
theorem c7_counterexample :
    c7ChatState.chatMessages.length = 1 ∧ c7ChatState.logs.length = 0 := by
  decide

/-- Two `savePrizeConfig` calls. -/
def c8TwoCalls : DB :=
  (MockDatabase.savePrizeConfig 3 2 1 "ETH" "0xToken" 20
    (MockDatabase.savePrizeConfig 5 3 1 "ETH" "0xToken" 10 initialDB).1).1

/-- C8 counterexample: after two `savePrizeConfig` calls the prize-config
table holds two rows — the second call inserts under a fresh `configId`
instead of updating the existing row, so the table is not a singleton. -/
theorem c8_counterexample : c8TwoCalls.prizeConfigs.length = 2 := by decide

/-- The prize-config row a `savePrizeConfig` call constructs (next
`configId`, the call arguments, the call time). -/
def newPrizeConfig (j f s : Nat) (c t : String) (now cid : Nat) : PrizeConfig :=
  { configId := cid, jackpotAmount := j, firstPlaceAmount := f
    secondPlaceAmount := s, currencyType := c
    tokenContractAddress := t, updatedAt := now }

theorem savePrizeConfig_fst_configs (j f s : Nat) (c t : String) (now : Nat)
    (db : DB) :
    (MockDatabase.savePrizeConfig j f s c t now db).1.prizeConfigs
      = db.prizeConfigs ++ [newPrizeConfig j f s c t now db.configIdCounter] := by
  unfold MockDatabase.savePrizeConfig newPrizeConfig
  cases db.prizeConfigs <;> rfl

/-- C8 amended: every `savePrizeConfig` call appends one new row (under
the next `configId`) — the table accumulates one row per call and only
`getLatest` is authoritative; the first call fires insert-subscribers
with the new row, every later call fires update-subscribers passing the
FIRST stored row as the old value and the new row as the new value. -/
theorem c8_save_prize_config (j f s : Nat) (c t : String) (now : Nat) (db : DB) :
    (MockDatabase.savePrizeConfig j f s c t now db).1.prizeConfigs.length
        = db.prizeConfigs.length + 1 ∧
      MockDatabase.getLatest (MockDatabase.savePrizeConfig j f s c t now db).1
        = some (newPrizeConfig j f s c t now db.configIdCounter) ∧
      (MockDatabase.savePrizeConfig j f s c t now db).2
        = (match db.prizeConfigs with
           | [] =>
             MockDatabase.PrizeNotify.insertNotify
               (newPrizeConfig j f s c t now db.configIdCounter)
           | c0 :: _ =>
             MockDatabase.PrizeNotify.updateNotify c0
               (newPrizeConfig j f s c t now db.configIdCounter)) := by
  have hsnd : (MockDatabase.savePrizeConfig j f s c t now db).2
      = (match db.prizeConfigs with
         | [] =>
           MockDatabase.PrizeNotify.insertNotify
             (newPrizeConfig j f s c t now db.configIdCounter)
         | c0 :: _ =>
           MockDatabase.PrizeNotify.updateNotify c0
             (newPrizeConfig j f s c t now db.configIdCounter)) := by
    unfold MockDatabase.savePrizeConfig newPrizeConfig
    cases db.prizeConfigs <;> rfl
  refine ⟨?_, ?_, hsnd⟩
  · rw [savePrizeConfig_fst_configs]
    simp
  · unfold MockDatabase.getLatest
    rw [savePrizeConfig_fst_configs]
    exact List.getLast?_concat _

/-- C4: the caller-facing `submitGuess` on a round that exists in the
view but is not `open` (in particular `closed`) returns the not-open
refusal and leaves the store — in particular the guesses table — 
completely unchanged: the precondition fails before any table mutation. -/
theorem c4_submit_guess_not_open (db : DB) (roundId address username : String)
    (guess : Nat) (pfpUrl : String) (nowMs nowSec : Nat) (round : ViewRound)
    (hfind : (viewRounds db).find? (fun r => r.id == roundId) = some round)
    (hstat : round.status ≠ RoundStatus.statusOpen) :
    lifecycleSubmitGuess db roundId address username guess pfpUrl nowMs nowSec
        = (SubmitOutcome.roundNotOpen, db) ∧
      (lifecycleSubmitGuess db roundId address username guess pfpUrl
        nowMs nowSec).2.guesses = db.guesses := by
  have hmain : lifecycleSubmitGuess db roundId address username guess pfpUrl
      nowMs nowSec = (SubmitOutcome.roundNotOpen, db) := by
    unfold lifecycleSubmitGuess
    rw [hfind]
    exact if_pos hstat
  exact ⟨hmain, by rw [hmain]⟩

/-- Round 1 created at t=10 and closed at t=15: status `closed`. -/
def c4DB : DB :=
  applyOp (Op.endRoundManually 1) 15
    (applyOp (Op.createRound 1 10 "BTC" (some 900000)) 10 initialDB)

/-- The caller-facing image of the closed round 1 of `c4DB`. -/
def c4ViewRound : ViewRound :=
  { id := "1", roundNumber := 1, startTime := 10000, endTime := 610000
    prize := "BTC", status := RoundStatus.statusClosed
    blockNumber := some 900000, actualTxCount := none
    winningAddress := none, blockHash := none
    createdAt := 10000, duration := 10 }

/-- Witness for C4 at a concrete closed round. -/
theorem c4_submit_guess_not_open_witness :
    ((viewRounds c4DB).find? (fun r => r.id == "1") = some c4ViewRound ∧
      c4ViewRound.status ≠ RoundStatus.statusOpen) ∧
    (lifecycleSubmitGuess c4DB "1" "0xabc" "alice" 50 "" 100000 100
        = (SubmitOutcome.roundNotOpen, c4DB) ∧
      (lifecycleSubmitGuess c4DB "1" "0xabc" "alice" 50 "" 100000 100).2.guesses
        = c4DB.guesses) :=
  ⟨⟨by decide, by decide⟩,
    c4_submit_guess_not_open c4DB "1" "0xabc" "alice" 50 "" 100000 100
      c4ViewRound (by decide) (by decide)⟩

/-- The (non-strict) winner preorder: no worse in absolute distance, and
no later on a distance tie. -/
def winnerKeyLe (actual : Nat) (a b : ViewGuess) : Prop :=
  guessDist a actual ≤ guessDist b actual ∧
    (guessDist a actual = guessDist b actual → a.submittedAt ≤ b.submittedAt)

theorem winnerKeyLe_refl (actual : Nat) (a : ViewGuess) :
    winnerKeyLe actual a a := ⟨Nat.le_refl _, fun _ => Nat.le_refl _⟩

theorem winnerKeyLe_trans {actual : Nat} {a b c : ViewGuess}
    (h1 : winnerKeyLe actual a b) (h2 : winnerKeyLe actual b c) :
    winnerKeyLe actual a c := by
  unfold winnerKeyLe at *
  omega

theorem winnerKeyLt_le {actual : Nat} {a b : ViewGuess}
    (h : winnerKeyLt actual a b) : winnerKeyLe actual a b := by
  unfold winnerKeyLt at h
  unfold winnerKeyLe
  omega

theorem winnerKeyLe_of_not_lt {actual : Nat} {a b : ViewGuess}
    (h : ¬ winnerKeyLt actual a b) : winnerKeyLe actual b a := by
  unfold winnerKeyLt at h
  unfold winnerKeyLe
  omega

theorem selectWinner_spec (actual : Nat) :
    ∀ (rest : List ViewGuess) (g0 : ViewGuess),
      (selectWinner actual g0 rest = g0 ∨ selectWinner actual g0 rest ∈ rest) ∧
      ∀ g, (g = g0 ∨ g ∈ rest) →
        winnerKeyLe actual (selectWinner actual g0 rest) g := by
  intro rest
  induction rest with
  | nil =>
    intro g0
    refine ⟨Or.inl rfl, ?_⟩
    intro g hg
    rcases hg with hg | hg
    · rw [hg]
      exact winnerKeyLe_refl actual g0
    · cases hg
  | cons x xs ih =>
    intro g0
    by_cases hx : winnerKeyLt actual x g0
    · have hstep : selectWinner actual g0 (x :: xs) = selectWinner actual x xs := by
        simp only [selectWinner, List.foldl_cons, if_pos hx]
      obtain ⟨hmem, hle⟩ := ih x
      rw [hstep]
      constructor
      · rcases hmem with hm | hm
        · rw [hm]
          exact Or.inr (List.mem_cons_self x xs)
        · exact Or.inr (List.mem_cons_of_mem x hm)
      · intro g hg
        rcases hg with hg | hg
        · rw [hg]
          exact winnerKeyLe_trans (hle x (Or.inl rfl)) (winnerKeyLt_le hx)
        · rcases List.mem_cons.mp hg with hgx | hgxs
          · rw [hgx]
            exact hle x (Or.inl rfl)
          · exact hle _ (Or.inr hgxs)
    · have hstep : selectWinner actual g0 (x :: xs) = selectWinner actual g0 xs := by
        simp only [selectWinner, List.foldl_cons, if_neg hx]
      obtain ⟨hmem, hle⟩ := ih g0
      rw [hstep]
      constructor
      · rcases hmem with hm | hm
        · exact Or.inl hm
        · exact Or.inr (List.mem_cons_of_mem x hm)
      · intro g hg
        rcases hg with hg | hg
        · rw [hg]
          exact hle g0 (Or.inl rfl)
        · rcases List.mem_cons.mp hg with hgx | hgxs
          · rw [hgx]
            exact winnerKeyLe_trans (hle g0 (Or.inl rfl)) (winnerKeyLe_of_not_lt hx)
          · exact hle _ (Or.inr hgxs)

/-- C2: the winner the tick selects (`sorted[0]` under the comparator on
(abs distance, submittedAt)) is a deterministic function of the round's
guesses and the observed transaction count: it is one of the guesses, it
minimises `abs(guess - actualTxCount)`, and among guesses at equal
distance it has the smallest `submittedAt`. -/
theorem c2_winner_selection (actual : Nat) (g0 : ViewGuess)
    (rest : List ViewGuess) :
    selectWinner actual g0 rest ∈ g0 :: rest ∧
      ∀ g, g ∈ g0 :: rest →
        guessDist (selectWinner actual g0 rest) actual ≤ guessDist g actual ∧
        (guessDist (selectWinner actual g0 rest) actual = guessDist g actual →
          (selectWinner actual g0 rest).submittedAt ≤ g.submittedAt) := by
  obtain ⟨hmem, hle⟩ := selectWinner_spec actual rest g0
  constructor
  · rcases hmem with hm | hm
    · rw [hm]; exact List.mem_cons_self g0 rest
    · exact List.mem_cons_of_mem g0 hm
  · intro g hg
    have := hle g (by rcases List.mem_cons.mp hg with h | h
                      · exact Or.inl h
                      · exact Or.inr h)
    exact this

/-- Guess A of the spec example: 100 tx, submitted first. -/
def c2GuessA : ViewGuess :=
  { id := "1", roundId := "1", address := "0xa", username := "A"
    guess := 100, pfpUrl := "", submittedAt := 1000 }

/-- Guess B of the spec example: 105 tx, submitted second. -/
def c2GuessB : ViewGuess :=
  { id := "2", roundId := "1", address := "0xb", username := "B"
    guess := 105, pfpUrl := "", submittedAt := 2000 }

/-- Guess C of the spec example: 95 tx, submitted third. -/
def c2GuessC : ViewGuess :=
  { id := "3", roundId := "1", address := "0xc", username := "C"
    guess := 95, pfpUrl := "", submittedAt := 3000 }

/-- Witness for C2 at the spec's example: guesses (A,100),(B,105),(C,95)
with actual 100 — the winner is A (exact match). -/
theorem c2_winner_selection_witness :
    selectWinner 100 c2GuessA [c2GuessB, c2GuessC] = c2GuessA ∧
      (selectWinner 100 c2GuessA [c2GuessB, c2GuessC]
          ∈ c2GuessA :: [c2GuessB, c2GuessC] ∧
        ∀ g, g ∈ c2GuessA :: [c2GuessB, c2GuessC] →
          guessDist (selectWinner 100 c2GuessA [c2GuessB, c2GuessC]) 100
              ≤ guessDist g 100 ∧
          (guessDist (selectWinner 100 c2GuessA [c2GuessB, c2GuessC]) 100
              = guessDist g 100 →
            (selectWinner 100 c2GuessA [c2GuessB, c2GuessC]).submittedAt
              ≤ g.submittedAt)) :=
  ⟨by decide, c2_winner_selection 100 c2GuessA [c2GuessB, c2GuessC]⟩

/-! ### The address encoding round-trips (C10) -/

theorem hexDigitVal_hexDigitChar : ∀ d, d < 16 →
    hexDigitVal (hexDigitChar d) = some d := by decide

theorem hexStep_digit {c : Char} {d : Nat} (h : hexDigitVal c = some d)
    (a : Nat) : hexStep (some a) c = some (a * 16 + d) := by
  simp [hexStep, h]

theorem natToHexCharsAux_ne_nil (fuel n : Nat) :
    natToHexCharsAux fuel n ≠ [] := by
  cases fuel with
  | zero => simp [natToHexCharsAux]
  | succ f =>
    rw [natToHexCharsAux]
    by_cases hlt : n < 16
    · simp [hlt]
    · simp [hlt]

theorem natToHexChars_ne_nil (n : Nat) : natToHexChars n ≠ [] :=
  natToHexCharsAux_ne_nil n n

theorem foldl_hexStep_aux :
    ∀ fuel n a, n ≤ fuel →
      List.foldl hexStep (some a) (natToHexCharsAux fuel n)
        = some (a * 16 ^ (natToHexCharsAux fuel n).length + n) := by
  intro fuel
  induction fuel with
  | zero =>
    intro n a h
    have hn : n = 0 := Nat.le_zero.mp h
    subst hn
    rw [natToHexCharsAux, List.foldl_cons, List.foldl_nil,
      hexStep_digit (hexDigitVal_hexDigitChar 0 (by omega))]
    simp
  | succ f ih =>
    intro n a h
    by_cases hlt : n < 16
    · rw [natToHexCharsAux, if_pos hlt]
      rw [List.foldl_cons, List.foldl_nil,
        hexStep_digit (hexDigitVal_hexDigitChar n hlt)]
      simp
    · rw [natToHexCharsAux, if_neg hlt]
      have hfuel : n / 16 ≤ f := by
        have hdiv : n / 16 < n := Nat.div_lt_self (by omega) (by omega)
        omega
      rw [List.foldl_append, ih (n / 16) a hfuel, List.foldl_cons, List.foldl_nil,
        hexStep_digit (hexDigitVal_hexDigitChar (n % 16) (Nat.mod_lt n (by omega)))]
      rw [List.length_append, List.length_cons, List.length_nil]
      have hdm : 16 * (n / 16) + n % 16 = n := Nat.div_add_mod n 16
      have halg : (a * 16 ^ (natToHexCharsAux f (n / 16)).length + n / 16) * 16
            + n % 16
          = a * (16 ^ (natToHexCharsAux f (n / 16)).length * 16)
            + (16 * (n / 16) + n % 16) := by ring
      rw [halg, hdm, ← pow_succ]

theorem foldl_hexStep_natToHexChars (n a : Nat) :
    List.foldl hexStep (some a) (natToHexChars n)
      = some (a * 16 ^ (natToHexChars n).length + n) :=
  foldl_hexStep_aux n n a (Nat.le_refl n)

theorem parseHexChars_ne_nil {l : List Char} (h : l ≠ []) :
    parseHexChars l = List.foldl hexStep (some 0) l := by
  cases l with
  | nil => exact absurd rfl h
  | cons c cs => rfl

theorem foldl_hexStep_zeros (k : Nat) :
    List.foldl hexStep (some 0) (List.replicate k '0') = some 0 := by
  induction k with
  | zero => rfl
  | succ k ih =>
    rw [List.replicate_succ, List.foldl_cons]
    have h0 : hexStep (some 0) '0' = some 0 := by decide
    rw [h0, ih]

theorem stripHexMark_0x (l : List Char) :
    stripHexMark ('0' :: 'x' :: l) = l := by
  show (if Char.toLower '0' = '0' ∧ Char.toLower 'x' = 'x'
    then l else '0' :: 'x' :: l) = l
  rw [if_pos]
  exact ⟨by decide, by decide⟩

/-- C10: for every user id `fid < 2^160`, the display encoding
`'0x' + fid.toString(16).padStart(40, '0')` composed with the decoding
used when submitting a guess or persisting a winner (strip the `0x`
marker, parse the rest as a hex integer) returns exactly `fid`: identity
survives the round-trip between the store and the caller-facing layer. -/
theorem c10_address_roundtrip (fid : Nat) (_h : fid < 2 ^ 160) :
    decodeAddress (encodeAddress fid) = some fid := by
  unfold decodeAddress encodeAddress
  show parseHexChars
    (stripHexMark ('0' :: 'x' :: padLeftZeros 40 (natToHexChars fid))) = some fid
  rw [stripHexMark_0x]
  unfold padLeftZeros
  have hne : List.replicate (40 - (natToHexChars fid).length) '0'
      ++ natToHexChars fid ≠ [] := by
    intro hc
    exact natToHexChars_ne_nil fid (List.append_eq_nil.mp hc).2
  rw [parseHexChars_ne_nil hne, List.foldl_append, foldl_hexStep_zeros,
    foldl_hexStep_natToHexChars]
  simp

/-- Witness for C10 at the admin id 250704. -/
theorem c10_address_roundtrip_witness :
    250704 < 2 ^ 160 ∧ decodeAddress (encodeAddress 250704) = some 250704 :=
  ⟨by decide, c10_address_roundtrip 250704 (by decide)⟩

/-! ### Engine-tick facts (C6, C3) -/

theorem lifecycleEndRound_guesses (db : DB) (roundId : String) (nowSec : Nat) :
    ((lifecycleEndRound db roundId nowSec).2).guesses = db.guesses := by
  unfold lifecycleEndRound
  split
  · rfl
  · split
    · rfl
    · split
      · show (MockDatabase.endRoundManually _ nowSec db).guesses = db.guesses
        unfold MockDatabase.endRoundManually
        split
        · rfl
        · rfl
      · rfl

theorem lifecycleEndRound_findRound {db : DB} {roundId : String} {rid : Nat}
    {nowSec : Nat} {r : Round}
    (hparse : strToNat roundId = some rid)
    (hfind : findRound rid db.rounds = some r) :
    ∃ r1, findRound rid ((lifecycleEndRound db roundId nowSec).2).rounds
      = some r1 := by
  unfold lifecycleEndRound
  split
  · exact ⟨r, hfind⟩
  · split
    · exact ⟨r, hfind⟩
    · split
      · rename_i rid2 hh
        have e : rid = rid2 := by
          rw [hparse] at hh
          injection hh
        rw [← e]
        show ∃ r1,
          findRound rid (MockDatabase.endRoundManually rid nowSec db).rounds
            = some r1
        rw [endRoundManually_rounds_some hfind]
        have hspec : r.roundId = rid := findRound_spec hfind
        exact ⟨_, findRound_setRound_self
          ({ r with status := RoundStatus.statusClosed }) hspec hfind⟩
      · exact ⟨r, hfind⟩

theorem lifecycleUpdateRoundResult_eq {roundId : String} {rid : Nat}
    {w : String} {fid : Nat} (hparse : strToNat roundId = some rid)
    (hw : decodeAddress w = some fid) (db : DB) (c : Nat) (bh : String)
    (nowSec : Nat) :
    lifecycleUpdateRoundResult db roundId c bh w nowSec
      = some (MockDatabase.updateRoundResult rid c bh fid nowSec db) := by
  unfold lifecycleUpdateRoundResult
  rw [hw, hparse]

theorem engineTick_no_guesses (db : DB) (roundRef : ViewRound)
    (info : BlockInfo) (nowSec : Nat)
    (hguess : (viewGuesses (lifecycleEndRound db roundRef.id nowSec).2).filter
      (fun g => g.roundId == roundRef.id) = []) :
    engineTick db roundRef false (some info) nowSec
      = match lifecycleUpdateRoundResult
          (lifecycleEndRound db roundRef.id nowSec).2 roundRef.id
          info.txCount info.blockHash zeroSentinel nowSec with
        | some db2 => db2
        | none => (lifecycleEndRound db roundRef.id nowSec).2 := by
  simp only [engineTick]
  rw [hguess]
  rfl

/-- C6: when the target block resolves for a round with zero guesses, the
tick still finalizes via `updateRoundResult` with the sentinel no-winner
identifier `0x0` (decoded to fid 0): the round reaches `finished` with
`actualTxCount` and `blockHash` populated and `winningFid = 0`. -/
theorem c6_no_guess_finalization (db : DB) (roundRef : ViewRound)
    (info : BlockInfo) (nowSec : Nat) (rid : Nat) (r : Round)
    (hparse : strToNat roundRef.id = some rid)
    (hfind : findRound rid db.rounds = some r)
    (hguess : (viewGuesses db).filter (fun g => g.roundId == roundRef.id) = []) :
    ∃ r', findRound rid
        (engineTick db roundRef false (some info) nowSec).rounds = some r' ∧
      r'.status = RoundStatus.statusFinished ∧
      r'.actualTxCount = some info.txCount ∧
      r'.blockHash = some info.blockHash ∧
      r'.winningFid = some 0 := by
  have hview : viewGuesses (lifecycleEndRound db roundRef.id nowSec).2
      = viewGuesses db := by
    unfold viewGuesses
    rw [lifecycleEndRound_guesses]
  have hfilter : (viewGuesses (lifecycleEndRound db roundRef.id nowSec).2).filter
      (fun g => g.roundId == roundRef.id) = [] := by
    rw [hview]
    exact hguess
  obtain ⟨r1, hr1⟩ := lifecycleEndRound_findRound hparse hfind
  rw [engineTick_no_guesses db roundRef info nowSec hfilter]
  rw [lifecycleUpdateRoundResult_eq hparse
    (show decodeAddress zeroSentinel = some 0 by decide)]
  show ∃ r', findRound rid
      (MockDatabase.updateRoundResult rid info.txCount info.blockHash 0 nowSec
        (lifecycleEndRound db roundRef.id nowSec).2).rounds = some r' ∧ _
  refine ⟨{ r1 with status := RoundStatus.statusFinished
                    actualTxCount := some info.txCount
                    blockHash := some info.blockHash
                    winningFid := some 0 }, ?_, rfl, rfl, rfl, rfl⟩
  rw [updateRoundResult_rounds_some hr1]
  have hspec : r1.roundId = rid := findRound_spec hr1
  exact findRound_setRound_self
    ({ r1 with status := RoundStatus.statusFinished
               actualTxCount := some info.txCount
               blockHash := some info.blockHash
               winningFid := some 0 }) hspec hr1

/-- Round 1 freshly created (no guesses). -/
def c6DB : DB :=
  applyOp (Op.createRound 1 10 "BTC" (some 900000)) 10 initialDB

/-- The store row of round 1 in `c6DB`. -/
def c6Round : Round :=
  { roundId := 1, roundNumber := 1, startTime := 10, endTime := 610
    durationMinutes := 10, prize := "BTC", status := RoundStatus.statusOpen
    blockNumber := some 900000, actualTxCount := none, winningFid := none
    blockHash := none, createdAt := 10 }

/-- The caller-facing image of the open round 1 of `c6DB`. -/
def c6RoundRef : ViewRound :=
  { id := "1", roundNumber := 1, startTime := 10000, endTime := 610000
    prize := "BTC", status := RoundStatus.statusOpen
    blockNumber := some 900000, actualTxCount := none
    winningAddress := none, blockHash := none
    createdAt := 10000, duration := 10 }

/-- Resolved block data for the witnesses. -/
def c6Info : BlockInfo := { blockHash := "hashB", txCount := 250 }

/-- Witness for C6: the tick on a guess-less open round finalizes it with
the sentinel winner. -/
theorem c6_no_guess_finalization_witness :
    (strToNat c6RoundRef.id = some 1 ∧
      findRound 1 c6DB.rounds = some c6Round ∧
      (viewGuesses c6DB).filter (fun g => g.roundId == c6RoundRef.id) = []) ∧
    (∃ r', findRound 1
        (engineTick c6DB c6RoundRef false (some c6Info) 700).rounds = some r' ∧
      r'.status = RoundStatus.statusFinished ∧
      r'.actualTxCount = some c6Info.txCount ∧
      r'.blockHash = some c6Info.blockHash ∧
      r'.winningFid = some 0) :=
  ⟨⟨by decide, by decide, by decide⟩,
    c6_no_guess_finalization c6DB c6RoundRef c6Info 700 1 c6Round
      (by decide) (by decide) (by decide)⟩

/-- Round 1 created at t=10 with one guess (fid 7, 120 tx) at t=12. -/
def c3DB0 : DB :=
  applyOp (Op.submitGuess 1 7 "alice" 120 none) 12
    (applyOp (Op.createRound 1 10 "BTC" (some 900000)) 10 initialDB)

/-- The view round the polling effect captured (`roundRef`). -/
def c3RoundRef : ViewRound :=
  { id := "1", roundNumber := 1, startTime := 10000, endTime := 610000
    prize := "BTC", status := RoundStatus.statusOpen
    blockNumber := some 900000, actualTxCount := none
    winningAddress := none, blockHash := none
    createdAt := 10000, duration := 10 }

/-- Resolved block data observed by both ticks. -/
def c3Info : BlockInfo := { blockHash := "hashC3", txCount := 123 }

/-- State after one tick body execution. -/
def c3Tick1 : DB := engineTick c3DB0 c3RoundRef false (some c3Info) 700

/-- State after a second tick body execution in immediate succession. -/
def c3Tick2 : DB := engineTick c3Tick1 c3RoundRef false (some c3Info) 730

/-- Number of log rows with the given event type. -/
def countLogsOfType (db : DB) (t : String) : Nat :=
  (db.logs.filter (fun l => l.eventType == t)).length

/-- Number of winner-announcement chat messages. -/
def countWinnerMsgs (db : DB) : Nat :=
  (db.chatMessages.filter (fun c => c.msgType == winnerMsgType)).length

/-- C3 counterexample: the tick body performs no status check before
finalizing — `endRound`'s refusal is ignored and `updateRoundResult` is
unconditional — so two executions of the tick body in immediate
succession finalize the same round twice: two `round_finished` logs and
two winner announcements, not one of each. -/
theorem c3_counterexample :
    countLogsOfType c3Tick1 evRoundFinished = 1 ∧
      countWinnerMsgs c3Tick1 = 1 ∧
      countLogsOfType c3Tick2 evRoundFinished = 2 ∧
      countWinnerMsgs c3Tick2 = 2 := by
  decide

/-- C3 amended: at-most-once finalization is enforced only by the timer
mechanism, not by a status check: the `finally clearInterval` of the
first block-observing tick clears the interval, and a cleared interval
never fires again, so a second timer-driven trigger is a no-op.  (A tick
body that does run a second time — the counterexample — finalizes
again.) -/
theorem c3_timer_single_shot (s : EngineState) (roundRef : ViewRound)
    (info : BlockInfo) (now1 now2 : Nat) (hact : s.intervalActive = true) :
    timerTick roundRef (some info) now2 (timerTick roundRef (some info) now1 s)
      = timerTick roundRef (some info) now1 s := by
  have h1 : timerTick roundRef (some info) now1 s
      = { db := engineTick s.db roundRef false (some info) now1
          intervalActive := false } := by
    unfold timerTick
    rw [hact]
    rfl
  rw [h1]
  unfold timerTick
  rfl

/-- Engine state for the C3 witness: interval still scheduled. -/
def c3EngineS0 : EngineState := { db := c3DB0, intervalActive := true }

/-- Witness for the C3 amended theorem at a concrete state. -/
theorem c3_timer_single_shot_witness :
    c3EngineS0.intervalActive = true ∧
      timerTick c3RoundRef (some c3Info) 730
          (timerTick c3RoundRef (some c3Info) 700 c3EngineS0)
        = timerTick c3RoundRef (some c3Info) 700 c3EngineS0 :=
  ⟨rfl, c3_timer_single_shot c3EngineS0 c3RoundRef c3Info 700 730 rfl⟩

/-! ### Chat view bound and ordering (C9) -/

/-- Clock value after processing the calls. -/
def lastTime : Nat → List ChatCall → Nat
  | t, [] => t
  | _, c :: cs => lastTime c.time cs

theorem toMillis_mono {a b : Nat} (h : a ≤ b) : toMillis a ≤ toMillis b :=
  Nat.mul_le_mul_right 1000 h

theorem chatInsertStep_cases (prev : List ViewChatMsg) (m : ViewChatMsg) :
    chatInsertStep prev m = prev ∨
      chatInsertStep prev m = (m :: prev).take 100 := by
  unfold chatInsertStep
  by_cases h : (prev.any (fun c => c.id == m.id)) = true
  · rw [if_pos h]
    exact Or.inl rfl
  · rw [if_neg h]
    exact Or.inr rfl

theorem runChatCalls_invariant :
    ∀ (cs : List ChatCall) (db : DB) (view : List ViewChatMsg) (t : Nat),
      timesOK t cs →
      (∀ m ∈ view, m.timestamp ≤ toMillis t) →
      sortedDescTs view →
      view.length ≤ 100 →
      (runChatCalls cs (db, view)).2.length ≤ 100 ∧
        sortedDescTs (runChatCalls cs (db, view)).2 ∧
        (∀ m ∈ (runChatCalls cs (db, view)).2,
          m.timestamp ≤ toMillis (lastTime t cs)) := by
  intro cs
  induction cs with
  | nil =>
    intro db view t _ hbound hsorted hlen
    exact ⟨hlen, hsorted, hbound⟩
  | cons c cs ih =>
    intro db view t hts hbound hsorted hlen
    obtain ⟨htc, hts2⟩ := hts
    have hrun : runChatCalls (c :: cs) (db, view)
        = runChatCalls cs
            ((MockDatabase.sendChatMessage c.roundId c.address c.username
              c.message c.pfpUrl c.msgType c.time db).1,
             chatInsertStep view
               (convertChatMsg (MockDatabase.sendChatMessage c.roundId
                 c.address c.username c.message c.pfpUrl c.msgType
                 c.time db).2)) := rfl
    rw [hrun]
    set newMsg := convertChatMsg (MockDatabase.sendChatMessage c.roundId
      c.address c.username c.message c.pfpUrl c.msgType c.time db).2 with hnew
    have hts' : newMsg.timestamp = toMillis c.time := rfl
    have hbound' : ∀ m ∈ chatInsertStep view newMsg,
        m.timestamp ≤ toMillis c.time := by
      intro m hm
      rcases chatInsertStep_cases view newMsg with hc | hc
      · rw [hc] at hm
        exact Nat.le_trans (hbound m hm) (toMillis_mono htc)
      · rw [hc] at hm
        have hm2 : m ∈ newMsg :: view := List.take_subset 100 _ hm
      -- m is the new message or one of the old ones
        rcases List.mem_cons.mp hm2 with he | ho
        · rw [he, hts']
        · exact Nat.le_trans (hbound m ho) (toMillis_mono htc)
    have hsorted' : sortedDescTs (chatInsertStep view newMsg) := by
      rcases chatInsertStep_cases view newMsg with hc | hc
      · rw [hc]
        exact hsorted
      · rw [hc]
        have hchain : sortedDescTs (newMsg :: view) := by
          cases view with
          | nil => exact List.chain'_singleton _
          | cons v vs =>
            rw [sortedDescTs, List.chain'_cons]
            refine ⟨?_, hsorted⟩
            rw [hts']
            exact Nat.le_trans (hbound v (List.mem_cons_self v vs))
              (toMillis_mono htc)
        exact hchain.take 100
    have hlen' : (chatInsertStep view newMsg).length ≤ 100 := by
      rcases chatInsertStep_cases view newMsg with hc | hc
      · rw [hc]
        exact hlen
      · rw [hc, List.length_take]
        exact Nat.min_le_left _ _
    exact ih _ _ c.time hts2 hbound' hsorted' hlen'

/-- C9: after any number of `addChatMessage` calls in one session (the
clock never running backwards), the chat view the caller sees — fed by
the subscription handler that prepends each inserted row and truncates
to 100 — holds at most 100 messages and presents them most-recent-first
(nonincreasing timestamps front-to-back); older entries beyond the cap
are no longer visible. -/
theorem c9_chat_view_bounded (cs : List ChatCall) (hts : timesOK 0 cs) :
    (runChatCalls cs (initialDB, [])).2.length ≤ 100 ∧
      sortedDescTs (runChatCalls cs (initialDB, [])).2 := by
  have h := runChatCalls_invariant cs initialDB [] 0 hts
    (by intro m hm; cases hm) (by exact List.chain'_nil) (by simp)
  exact ⟨h.1, h.2.1⟩

/-- Three chat calls at nondecreasing times. -/
def c9Calls : List ChatCall :=
  [ { roundId := "global", address := "0xa", username := "A"
      message := "gm", pfpUrl := "", msgType := "chat", time := 5 }
  , { roundId := "global", address := "0xb", username := "B"
      message := "hi", pfpUrl := "", msgType := "chat", time := 6 }
  , { roundId := "global", address := "0xc", username := "C"
      message := "yo", pfpUrl := "", msgType := "chat", time := 6 } ]

/-- Witness for C9 on a concrete three-call session. -/
theorem c9_chat_view_bounded_witness :
    timesOK 0 c9Calls ∧
      ((runChatCalls c9Calls (initialDB, [])).2.length ≤ 100 ∧
        sortedDescTs (runChatCalls c9Calls (initialDB, [])).2) :=
  ⟨by decide, c9_chat_view_bounded c9Calls (by decide)⟩
